import Mathlib

/-!
Verification development for the clifi agent (Go).

Shallow embedding of the parts of the source relevant to the frozen claims:
JSON redaction (internal/agent/redact.go), transaction policy validation
(internal/tx/intent.go), credential resolution (internal/auth/auth.go),
the multi-RPC chain client (internal/chain/client.go), the signing tool
handlers (internal/agent/tools.go), and the orchestrator chat loop
(Agent.ChatWithEvents).

Effectful collaborators (keystore, chain RPC, LLM provider, environment)
are modelled as explicit oracle parameters; pure code is translated
directly.
-/

namespace Clifi

/-! ## JSON values (internal/agent/redact.go)

Go `json.Unmarshal` into `any` yields a tree of `map[string]any`,
`[]any`, `string`, `float64`, `bool`, `nil`.  We model that tree with a
mutual inductive family: `JValue` for a value, `JList` for a `[]any`
slice, `JObj` for the key/value pairs of a `map[string]any` (modelled as
an ordered association list). -/

mutual

inductive JValue where
  | null : JValue
  | bool (b : Bool) : JValue
  | num (q : Rat) : JValue
  | str (s : String) : JValue
  | arr (xs : JList) : JValue
  | obj (kvs : JObj) : JValue

inductive JList where
  | nil : JList
  | cons (v : JValue) (rest : JList) : JList

inductive JObj where
  | nil : JObj
  | cons (k : String) (v : JValue) (rest : JObj) : JObj

end

/-- Sensitive keys, from the `redactKeys` map in redact.go. -/
def redactKeys : List String :=
  ["password", "api_key", "apikey", "access_token", "refresh_token", "private_key", "secret"]

mutual

/-- Embedding of `redactValue` (redact.go): replace the value of any
sensitive key (compared lower-cased) by `"***REDACTED***"`, recursing
through objects and arrays. -/
def redactValue : JValue → JValue
  | .null => .null
  | .bool b => .bool b
  | .num q => .num q
  | .str s => .str s
  | .arr xs => .arr (redactList xs)
  | .obj kvs => .obj (redactObj kvs)

/-- The `[]any` branch of `redactValue`. -/
def redactList : JList → JList
  | .nil => .nil
  | .cons v rest => .cons (redactValue v) (redactList rest)

/-- The `map[string]any` branch of `redactValue`: the Go loop over the
map's entries, keeping every key and redacting or recursing on its
value. -/
def redactObj : JObj → JObj
  | .nil => .nil
  | .cons k v rest =>
      if redactKeys.contains k.toLower then
        .cons k (.str "***REDACTED***") (redactObj rest)
      else
        .cons k (redactValue v) (redactObj rest)

end

/-- Embedding of `strings.TrimSpace`: drop leading and trailing
whitespace characters. -/
def trimSpace (s : String) : String :=
  String.mk (((s.toList.dropWhile Char.isWhitespace).reverse.dropWhile
    Char.isWhitespace).reverse)

/-- Embedding of `RedactJSONArgs` (redact.go).  `parse` stands for
`json.Unmarshal` (`none` = parse error) and `marshal` for
`json.Marshal`, which cannot fail on the value trees produced here. -/
def RedactJSONArgs (parse : String → Option JValue) (marshal : JValue → String)
    (raw : String) : String :=
  let raw := trimSpace raw
  if raw = "" then raw
  else
    match parse raw with
    | none => raw
    | some v => marshal (redactValue v)

mutual

/-- Specification relation, written from the claim: `RedactedV v w` holds
when `w` is structurally identical to `v` except that the value of any
key in the sensitive set (compared case-insensitively) is replaced by
the string `"***REDACTED***"`, applied recursively through nested
objects and arrays, all other keys and values unchanged. -/
inductive RedactedV : JValue → JValue → Prop where
  | null : RedactedV .null .null
  | bool (b : Bool) : RedactedV (.bool b) (.bool b)
  | num (q : Rat) : RedactedV (.num q) (.num q)
  | str (s : String) : RedactedV (.str s) (.str s)
  | arr {xs ys : JList} : RedactedL xs ys → RedactedV (.arr xs) (.arr ys)
  | obj {kvs ws : JObj} : RedactedO kvs ws → RedactedV (.obj kvs) (.obj ws)

/-- Pointwise lifting of `RedactedV` to array elements. -/
inductive RedactedL : JList → JList → Prop where
  | nil : RedactedL .nil .nil
  | cons {v w : JValue} {r r' : JList} :
      RedactedV v w → RedactedL r r' → RedactedL (.cons v r) (.cons w r')

/-- Object entries: a sensitive key keeps its key and gets the redaction
marker as its value; any other entry keeps its key and has its value
redacted recursively. -/
inductive RedactedO : JObj → JObj → Prop where
  | nil : RedactedO .nil .nil
  | consRedact {k : String} {v : JValue} {r r' : JObj} :
      redactKeys.contains k.toLower = true →
      RedactedO r r' →
      RedactedO (.cons k v r) (.cons k (.str "***REDACTED***") r')
  | consKeep {k : String} {v w : JValue} {r r' : JObj} :
      redactKeys.contains k.toLower = false →
      RedactedV v w →
      RedactedO r r' →
      RedactedO (.cons k v r) (.cons k w r')

end

/-! ## Transaction intents and policy (internal/tx/intent.go) -/

/-- Addresses (`common.Address`, a 20-byte value) are modelled by their
numeric value. -/
abbrev Addr := Nat

/-- Embedding of `tx.Intent`.  `*big.Int` pointers become `Option Int`
(`none` = nil pointer); calldata becomes a byte list. -/
structure Intent where
  chain : String
  from_ : Addr
  to_ : Addr
  valueWei : Option Int
  data : List Nat := []
  nonce : Option Nat := none
  gasLimit : Option Nat := none
  maxFeePerG : Option Int := none
  maxPriority : Option Int := none
deriving Repr, DecidableEq

/-- Embedding of `tx.Policy`. -/
structure Policy where
  maxPerTxWei : Option Int := none
  allowTo : List Addr := []
  denyTo : List Addr := []
deriving Repr, DecidableEq

/-- Embedding of `tx.Validate`: nil-value check, deny list, allow list,
per-transaction spend limit, in source order with the source's error
strings. -/
def Validate (intent : Intent) (policy : Policy) : Except String Unit :=
  match intent.valueWei with
  | none => .error "value missing"
  | some v =>
    if policy.denyTo.contains intent.to_ then
      .error "destination denied by policy"
    else if policy.allowTo ≠ [] ∧ ¬ policy.allowTo.contains intent.to_ then
      .error "destination not in allowlist"
    else
      match policy.maxPerTxWei with
      | some m => if v > m then .error "value exceeds max per tx limit" else .ok ()
      | none => .ok ()

/-! ## Credential resolution (internal/auth/auth.go, internal/auth/store.go)

`ProviderID` is a string type in the source; we keep it as `String`.
The environment (`os.Getenv`) and the user config (`viper.GetString`)
are oracles; the credential store lookup (`Store.GetCredential`) is an
oracle returning the stored `Credential` or an error. -/

/-- Embedding of `auth.CredentialType` (`"api"` / `"oauth"`). -/
inductive CredentialType where
  | api : CredentialType
  | oauth : CredentialType
deriving Repr, DecidableEq

/-- Embedding of `auth.Credential`. -/
structure Credential where
  type_ : CredentialType
  key : String := ""
  accessToken : String := ""
  refreshToken : String := ""
  expiresAt : String := ""
deriving Repr, DecidableEq

/-- Embedding of `llm.EnvVarForProvider`. -/
def EnvVarForProvider (id : String) : String :=
  if id = "anthropic" then "ANTHROPIC_API_KEY"
  else if id = "openai" then "OPENAI_API_KEY"
  else if id = "venice" then "VENICE_API_KEY"
  else if id = "copilot" then "GITHUB_TOKEN"
  else if id = "gemini" then "GOOGLE_API_KEY"
  else if id = "openrouter" then "OPENROUTER_API_KEY"
  else ""

/-- Scan an `env:`-reference after an opening brace: expects the literal
characters `env:` then at least one character other than a closing brace
before a closing brace; returns the variable name and the remainder.
Mirrors one match of the source's regex. -/
def splitEnvRef : List Char → Option (String × List Char)
  | 'e' :: 'n' :: 'v' :: ':' :: rest =>
    let varName := rest.takeWhile (fun c => c ≠ '\x7d')
    let after := rest.dropWhile (fun c => c ≠ '\x7d')
    match after with
    | '\x7d' :: rem => if varName.isEmpty then none else some (String.mk varName, rem)
    | _ => none
  | _ => none

/-- Character-list worker for `resolveEnvSubstitution`, with fuel (the
initial list length) to make the skip past a matched reference
structurally terminating. -/
def resolveEnvChars (getenv : String → String) : Nat → List Char → List Char
  | 0, cs => cs
  | _ + 1, [] => []
  | fuel + 1, c :: rest =>
    if c = '\x7b' then
      match splitEnvRef rest with
      | some (varName, rem) => (getenv varName).toList ++ resolveEnvChars getenv fuel rem
      | none => c :: resolveEnvChars getenv fuel rest
    else c :: resolveEnvChars getenv fuel rest

/-- Embedding of `auth.resolveEnvSubstitution`: replace every
`env:`-variable reference written in braces by `getenv` of the variable
name (missing variables substitute the empty string). -/
def resolveEnvSubstitution (getenv : String → String) (value : String) : String :=
  String.mk (resolveEnvChars getenv value.length value.toList)

/-- Embedding of `auth.Manager.GetAPIKey`: environment variable, then
user config with `env:` substitution, then the credential store's `key`
field; otherwise a credential-missing error.  `getenv` models
`os.Getenv`, `viperGet` models `viper.GetString`, and `store` models
`Store.GetCredential`. -/
def GetAPIKey (getenv : String → String) (viperGet : String → String)
    (store : String → Except String Credential) (providerID : String) :
    Except String String :=
  let envVar := EnvVarForProvider providerID
  if envVar ≠ "" ∧ getenv envVar ≠ "" then
    .ok (getenv envVar)
  else
    let configKey := "llm.providers." ++ providerID ++ ".api_key"
    let key := viperGet configKey
    let resolved := resolveEnvSubstitution getenv key
    if key ≠ "" ∧ resolved ≠ "" then
      .ok resolved
    else
      match store providerID with
      | .ok cred =>
        if cred.key ≠ "" then .ok cred.key
        else .error ("no API key found for provider: " ++ providerID)
      | .error _ => .error ("no API key found for provider: " ++ providerID)

/-! ## Chain client (internal/chain/client.go) -/

/-- Embedding of `chain.ChainConfig` (the fields `getClient` reads). -/
structure ChainConfigM where
  name : String
  chainID : Int
  rpcUrls : List String
deriving Repr, DecidableEq

/-- Model of a connected `ethclient.Client`: the RPC URL it was dialed
on and the chain id the endpoint reported for the `eth_chainId`
verification query. -/
structure EthClientM where
  url : String
  reportedChainID : Int
deriving Repr, DecidableEq

/-- Outcome of dialing one RPC URL: the dial itself fails, the
`eth_chainId` query fails, or the endpoint answers with a chain id. -/
inductive DialResult where
  | dialFail (e : String) : DialResult
  | chainIDFail (e : String) : DialResult
  | connected (id : Int) : DialResult
deriving Repr, DecidableEq

/-- Mutable state of `chain.Client`: declared chains and the cache of
verified clients, both keyed by chain name (assoc lists model the Go
maps). -/
structure ClientState where
  chains : List (String × ChainConfigM)
  clients : List (String × EthClientM)
deriving Repr, DecidableEq

/-- The URL loop of `Client.getClient`: dial each RPC URL in order,
verify the reported chain id against the declared one, remember the last
error, and return the first verified client.  `lastErr` is `none` until
a URL has failed. -/
def tryRPCURLs (dial : String → DialResult) (config : ChainConfigM) :
    List String → Option String → Except String EthClientM
  | [], lastErr =>
    .error ("failed to connect to " ++ config.name ++ ": " ++ lastErr.getD "%!w(<nil>)")
  | url :: rest, _lastErr =>
    match dial url with
    | .dialFail e => tryRPCURLs dial config rest (some e)
    | .chainIDFail e => tryRPCURLs dial config rest (some e)
    | .connected id =>
      if id ≠ config.chainID then
        tryRPCURLs dial config rest
          (some ("chain ID mismatch: expected " ++ toString config.chainID ++ ", got " ++ toString id))
      else
        .ok { url := url, reportedChainID := id }

/-- Embedding of `Client.getClient`: return the cached client if
present, otherwise run the URL loop and cache the first verified client;
failure returns the last error wrapped with the chain name. -/
def getClient (dial : String → DialResult) (st : ClientState) (chainName : String) :
    Except String (EthClientM × ChainConfigM) × ClientState :=
  match st.chains.lookup chainName with
  | none => (.error ("unknown chain: " ++ chainName), st)
  | some config =>
    match st.clients.lookup chainName with
    | some client => (.ok (client, config), st)
    | none =>
      match tryRPCURLs dial config config.rpcUrls none with
      | .error e => (.error e, st)
      | .ok client =>
        (.ok (client, config), { st with clients := (chainName, client) :: st.clients })

/-- Cache invariant: every cached client's verified chain id equals the
declared `chain_id` of its chain. -/
def CacheConsistent (st : ClientState) : Prop :=
  ∀ name client config,
    st.clients.lookup name = some client →
    st.chains.lookup name = some config →
    client.reportedChainID = config.chainID

/-- Substring test (`strings.Contains`): `strSub nd hay` is true when
`nd` occurs contiguously in `hay`. -/
def listStartsWith : List Char → List Char → Bool
  | [], _ => true
  | _ :: _, [] => false
  | a :: as, b :: bs => a = b && listStartsWith as bs

/-- Worker for `strSub` over character lists. -/
def listSub (nd : List Char) : List Char → Bool
  | [] => nd.isEmpty
  | c :: rest => listStartsWith nd (c :: rest) || listSub nd rest

/-- String containment used to state what the composite connection error
does and does not mention. -/
def strSub (nd hay : String) : Bool :=
  listSub nd.toList hay.toList

/-- A URL passes `getClient`'s verification when it dials successfully
and reports the declared chain id. -/
def urlVerifies (dial : String → DialResult) (config : ChainConfigM) (url : String) : Bool :=
  match dial url with
  | .connected id => id = config.chainID
  | _ => false

/-- A URL dials successfully but reports a chain id different from the
declared one. -/
def dialMismatch (dial : String → DialResult) (config : ChainConfigM) (url : String) : Bool :=
  match dial url with
  | .connected id => id ≠ config.chainID
  | _ => false

/-- The `lastErr` value held after the URL loop has traversed the given
URLs (meaningful when none of them verifies). -/
def lastRPCErr (dial : String → DialResult) (config : ChainConfigM) :
    List String → Option String → Option String
  | [], lastErr => lastErr
  | url :: rest, lastErr =>
    match dial url with
    | .dialFail e => lastRPCErr dial config rest (some e)
    | .chainIDFail e => lastRPCErr dial config rest (some e)
    | .connected id =>
      if id ≠ config.chainID then
        lastRPCErr dial config rest
          (some ("chain ID mismatch: expected " ++ toString config.chainID ++ ", got " ++ toString id))
      else lastRPCErr dial config rest lastErr

/-! ## wait_receipt timeout (internal/agent/tools.go, handleWaitReceipt) -/

/-- Embedding of the timeout computation in `handleWaitReceipt`: start
from the 120-second default and, only for a positive `timeout_sec`,
clamp it into 5..600 seconds.  A missing JSON field decodes to `0`. -/
def waitReceiptTimeoutSec (timeoutSec : Int) : Int :=
  if timeoutSec > 0 then
    let t1 := if timeoutSec < 5 then 5 else timeoutSec
    let t2 := if t1 > 600 then 600 else t1
    t2
  else
    120

/-! ## Signing tool handlers (internal/agent/tools.go)

The three state-changing handlers `send_native`, `send_token` and
`approve_token`.  Network- and keystore-backed steps (`tr.keystore()`,
`GetChainConfig`, `BuildUnsignedTx`, `signAndSendTx`,
`maybeWaitAndPersistReceipt`, `queryTokenMeta`) are oracles in `TxEnv`;
the `big.Rat`-based amount parsing (`parseEthToWei`, `decimalToWei`) and
the display formatting (`weiToGwei`, `weiToEth`, checksummed
`Address.Hex`) are likewise supplied as oracle functions, since no claim
depends on their internals.  Address validation, calldata encoding, the
intent construction, the policy validation and the confirm/password gate
are translated directly.

Each handler returns its `(ToolOutput, error)` result paired with a
Boolean recording whether control reached `signAndSendTx` — that is,
whether a signing/broadcast attempt was made. -/

/-- Embedding of `KVItem` (UI block item). -/
structure KVItem where
  key : String
  value : String
deriving Repr, DecidableEq

/-- Embedding of a `UIBlock` in the key-value form the signing handlers
produce. -/
structure UIKV where
  title : String
  items : List KVItem
deriving Repr, DecidableEq

/-- Embedding of `ToolOutput`: LLM-facing text plus structured UI
blocks. -/
structure ToolOutputM where
  text : String
  blocks : List UIKV := []
deriving Repr, DecidableEq

/-- Hex digit test (`isHexCharacter` in go-ethereum). -/
def isHexChar (c : Char) : Bool :=
  ('0' ≤ c && c ≤ '9') || ('a' ≤ c && c ≤ 'f') || ('A' ≤ c && c ≤ 'F')

/-- Strip an optional `0x`/`0X` marker, as go-ethereum's address parsing
does. -/
def strip0x (s : List Char) : List Char :=
  match s with
  | '0' :: 'x' :: rest => rest
  | '0' :: 'X' :: rest => rest
  | _ => s

/-- Embedding of `common.IsHexAddress`: after the optional marker,
exactly 40 hex characters. -/
def isHexAddress (s : String) : Bool :=
  let t := strip0x s.toList
  t.length = 40 && t.all isHexChar

/-- Numeric value of a hex digit (0 for non-digits; only applied to
validated addresses). -/
def hexCharVal (c : Char) : Nat :=
  if '0' ≤ c && c ≤ '9' then c.toNat - '0'.toNat
  else if 'a' ≤ c && c ≤ 'f' then c.toNat - 'a'.toNat + 10
  else if 'A' ≤ c && c ≤ 'F' then c.toNat - 'A'.toNat + 10
  else 0

/-- Embedding of `common.HexToAddress` on validated input: the numeric
value of the 40 hex digits. -/
def hexToAddress (s : String) : Addr :=
  (strip0x s.toList).foldl (fun acc c => acc * 16 + hexCharVal c) 0

/-- Embedding of `requireHexAddress` (tools.go). -/
def requireHexAddress (label v : String) : Except String Addr :=
  if isHexAddress v then .ok (hexToAddress v)
  else .error ("invalid " ++ label ++ ": " ++ v)

/-- Big-endian byte encoding of a natural number (`big.Int.Bytes`):
empty for zero. -/
def beBytes (n : Nat) : List Nat :=
  if hn : n = 0 then [] else beBytes (n / 256) ++ [n % 256]
decreasing_by
  exact Nat.div_lt_self (Nat.pos_of_ne_zero (by exact hn)) (by omega)

/-- Embedding of `common.LeftPadBytes`: pad with leading zero bytes up
to `l`, returning the slice unchanged when already at least that long. -/
def leftPadBytes (bs : List Nat) (l : Nat) : List Nat :=
  if bs.length ≥ l then bs
  else List.replicate (l - bs.length) 0 ++ bs

/-- Embedding of `buildERC20TransferData`: `transfer(address,uint256)`
selector, padded recipient, padded big-endian amount. -/
def buildERC20TransferData (to_ : Addr) (amount : Int) : List Nat :=
  [0xa9, 0x05, 0x9c, 0xbb] ++ leftPadBytes (beBytes to_) 32 ++ leftPadBytes (beBytes amount.toNat) 32

/-- Embedding of `buildERC20ApproveData`: `approve(address,uint256)`
selector, padded spender, padded big-endian amount. -/
def buildERC20ApproveData (spender : Addr) (amount : Int) : List Nat :=
  [0x09, 0x5e, 0xa7, 0xb3] ++ leftPadBytes (beBytes spender) 32 ++ leftPadBytes (beBytes amount.toNat) 32

/-- Embedding of `SuggestedFees` as rendered into the preview. -/
structure FeesM where
  gasLimit : Nat
  maxFeePerGas : Int
  maxPriorityFee : Int
  estimatedCostWei : Int
deriving Repr, DecidableEq

/-- Oracle environment for one signing-handler invocation. -/
structure TxEnv where
  /-- `tr.keystore()` followed by `ListAccounts`: the keystore accounts,
  or the keystore error. -/
  keystoreAccounts : Except String (List Addr)
  /-- `chainClient.GetChainConfig`. -/
  chainConfig : String → Except String ChainConfigM
  /-- `parseEthToWei`: `big.Rat` decimal parsing of an ETH amount into
  wei (`none` = parse error). -/
  parseEthToWei : String → Option Int
  /-- `decimalToWei`: `big.Rat` decimal parsing scaled by the token's
  decimals. -/
  decimalToWei : String → Nat → Option Int
  /-- `queryTokenMeta`: decimals and symbol for a token, with the 18 /
  "TOKEN" defaults already applied on RPC failure. -/
  tokenMeta : Addr → Nat × String
  /-- `tx.BuildUnsignedTx`: nonce/fee/gas resolution over the chain
  client; the handler only renders the returned fees. -/
  buildUnsignedTx : Intent → Except String FeesM
  /-- `signAndSendTx`: unlock the signer, sign, broadcast; returns the
  transaction hash string. -/
  signAndSend : Except String String
  /-- `maybeWaitAndPersistReceipt`: the appended receipt line, `""` when
  absent. -/
  receiptLine : String
  /-- Checksummed `common.Address.Hex` rendering. -/
  addrHex : Addr → String
  /-- `weiToGwei` display formatting (`big.Rat.FloatString 2`). -/
  weiToGwei : Int → String
  /-- `weiToEth` display formatting (`big.Rat.FloatString 6`). -/
  weiToEth : Int → String

/-- Embedding of `sendNativeInput`. -/
structure SendNativeInput where
  from_ : String := ""
  to_ : String
  chain : String
  amountETH : String
  password : String := ""
  confirm : Bool := false
  wait : Option Bool := none
deriving Repr, DecidableEq

/-- Embedding of `sendTokenInput`. -/
structure SendTokenInput where
  from_ : String := ""
  to_ : String
  token : String
  chain : String
  amountTokens : String
  password : String := ""
  confirm : Bool := false
  wait : Option Bool := none
deriving Repr, DecidableEq

/-- Embedding of `approveTokenInput`. -/
structure ApproveTokenInput where
  from_ : String := ""
  spender : String
  token : String
  chain : String
  amountTokens : String
  password : String := ""
  confirm : Bool := false
  wait : Option Bool := none
deriving Repr, DecidableEq

/-- Embedding of `prepareTxFrom`: require a chain name, load the
keystore accounts, default `from` to the first account or parse the
override, and resolve the chain config. -/
def prepareTxFrom (env : TxEnv) (chainName fromStr : String) :
    Except String (Addr × ChainConfigM) :=
  if chainName = "" then .error "chain is required"
  else
    match env.keystoreAccounts with
    | .error e => .error e
    | .ok accounts =>
      match accounts with
      | [] => .error "no wallets found in keystore"
      | a0 :: _ =>
        let fromRes : Except String Addr :=
          if fromStr ≠ "" then requireHexAddress "from address" fromStr else .ok a0
        match fromRes with
        | .error e => .error e
        | .ok fromAddr =>
          match env.chainConfig chainName with
          | .error e => .error e
          | .ok cfg => .ok (fromAddr, cfg)

/-- The preview text composed by `handleSendNative`. -/
def sendNativePreview (env : TxEnv) (p : SendNativeInput) (fromAddr : Addr) (fees : FeesM) :
    String :=
  "Preview:\n- Chain: " ++ p.chain ++ "\n- From: " ++ env.addrHex fromAddr ++
  "\n- To: " ++ p.to_ ++ "\n- Amount: " ++ p.amountETH ++ " ETH" ++
  "\n- Gas limit: " ++ toString fees.gasLimit ++
  "\n- Max fee: " ++ env.weiToGwei fees.maxFeePerGas ++ " gwei" ++
  "\n- Max priority fee: " ++ env.weiToGwei fees.maxPriorityFee ++ " gwei" ++
  "\n- Estimated total: " ++ env.weiToEth fees.estimatedCostWei ++ " ETH\n"

/-- The intent `handleSendNative` validates: native value to the
recipient, no calldata. -/
def sendNativeIntent (chainName : String) (fromAddr toAddr : Addr) (wei : Int) : Intent :=
  { chain := chainName, from_ := fromAddr, to_ := toAddr, valueWei := some wei }

/-- The intent `handleSendToken` validates: destination is the token
contract, zero native value, ERC-20 `transfer` calldata carrying the
recipient and amount. -/
def sendTokenIntent (chainName : String) (fromAddr tokenAddr toAddr : Addr) (amountWei : Int) :
    Intent :=
  { chain := chainName, from_ := fromAddr, to_ := tokenAddr, valueWei := some 0,
    data := buildERC20TransferData toAddr amountWei }

/-- The intent `handleApproveToken` validates: destination is the token
contract, zero native value, ERC-20 `approve` calldata carrying the
spender and amount. -/
def approveTokenIntent (chainName : String) (fromAddr tokenAddr spenderAddr : Addr)
    (amountWei : Int) : Intent :=
  { chain := chainName, from_ := fromAddr, to_ := tokenAddr, valueWei := some 0,
    data := buildERC20ApproveData spenderAddr amountWei }

/-- The fallible pre-gate pipeline of `handleSendNative`: validate the
recipient and amount, resolve `from` and the chain config, validate the
intent against the policy, and build the unsigned transaction.  Errors
short-circuit in source order. -/
def sendNativePipeline (env : TxEnv) (policy : Policy) (p : SendNativeInput) :
    Except String (Addr × FeesM) :=
  match requireHexAddress "recipient address" p.to_ with
  | .error e => .error e
  | .ok toAddr =>
  if p.amountETH = "" then .error "amount_eth is required"
  else
  match env.parseEthToWei p.amountETH with
  | none => .error "invalid amount_eth"
  | some wei =>
  if wei ≤ 0 then .error "amount_eth must be greater than zero"
  else
  match prepareTxFrom env p.chain p.from_ with
  | .error e => .error e
  | .ok (fromAddr, _cfg) =>
  match Validate (sendNativeIntent p.chain fromAddr toAddr wei) policy with
  | .error e => .error e
  | .ok _ =>
  match env.buildUnsignedTx (sendNativeIntent p.chain fromAddr toAddr wei) with
  | .error e => .error e
  | .ok fees => .ok (fromAddr, fees)

/-- Embedding of `handleSendNative`: the pipeline, then the preview /
confirm / password gate and the sign-and-broadcast tail.  The second
component records whether control reached `signAndSendTx`. -/
def handleSendNative (env : TxEnv) (policy : Policy) (p : SendNativeInput) :
    Except String ToolOutputM × Bool :=
  match sendNativePipeline env policy p with
  | .error e => (.error e, false)
  | .ok (fromAddr, fees) =>
  let summary := sendNativePreview env p fromAddr fees
  if p.confirm = false then
    if p.password = "" then
      (.ok { text := summary ++ "\nSet confirm=true and provide password to sign and broadcast." }, false)
    else
      (.ok { text := summary ++ "\nSet confirm=true to sign and broadcast." }, false)
  else if p.password = "" then (.error "password required to sign", false)
  else
    match env.signAndSend with
    | .error e => (.error e, true)
    | .ok txHash =>
      let result := summary ++ "\n\nBroadcasted tx: " ++ txHash
      let result := if env.receiptLine ≠ "" then result ++ "\n" ++ env.receiptLine else result
      (.ok { text := result,
             blocks := [{ title := "Native send",
                          items := [⟨"Chain", p.chain⟩, ⟨"From", env.addrHex fromAddr⟩,
                                    ⟨"To", p.to_⟩, ⟨"Amount", p.amountETH ++ " ETH"⟩,
                                    ⟨"Tx", txHash⟩] }] }, true)

/-- The preview text composed by `handleSendToken`. -/
def sendTokenPreview (env : TxEnv) (p : SendTokenInput) (fromAddr : Addr) (symbol : String)
    (fees : FeesM) : String :=
  "Preview ERC20 transfer:\n- Token: " ++ p.token ++ " (" ++ symbol ++ ")" ++
  "\n- Chain: " ++ p.chain ++ "\n- From: " ++ env.addrHex fromAddr ++
  "\n- To: " ++ p.to_ ++ "\n- Amount: " ++ p.amountTokens ++ " " ++ symbol ++
  "\n- Gas limit: " ++ toString fees.gasLimit ++
  "\n- Max fee: " ++ env.weiToGwei fees.maxFeePerGas ++ " gwei" ++
  "\n- Max priority fee: " ++ env.weiToGwei fees.maxPriorityFee ++ " gwei" ++
  "\n- Estimated total (gas only): " ++ env.weiToEth fees.estimatedCostWei ++ " ETH\n"

/-- The fallible pre-gate pipeline of `handleSendToken`: validate the
recipient, token and amount, resolve `from` and the chain config, query
token metadata, build the `transfer` calldata, validate the zero-value
intent against the policy, and build the unsigned transaction. -/
def sendTokenPipeline (env : TxEnv) (policy : Policy) (p : SendTokenInput) :
    Except String (Addr × String × FeesM) :=
  match requireHexAddress "recipient address" p.to_ with
  | .error e => .error e
  | .ok toAddr =>
  match requireHexAddress "token address" p.token with
  | .error e => .error e
  | .ok tokenAddr =>
  if p.amountTokens = "" then .error "amount_tokens is required"
  else
  match prepareTxFrom env p.chain p.from_ with
  | .error e => .error e
  | .ok (fromAddr, _cfg) =>
  let meta := env.tokenMeta tokenAddr
  match env.decimalToWei p.amountTokens meta.1 with
  | none => .error "invalid amount_tokens"
  | some amountWei =>
  if amountWei ≤ 0 then .error "amount_tokens must be greater than zero"
  else
  match Validate (sendTokenIntent p.chain fromAddr tokenAddr toAddr amountWei) policy with
  | .error e => .error e
  | .ok _ =>
  match env.buildUnsignedTx (sendTokenIntent p.chain fromAddr tokenAddr toAddr amountWei) with
  | .error e => .error e
  | .ok fees => .ok (fromAddr, meta.2, fees)

/-- Embedding of `handleSendToken`: the pipeline, then the preview /
confirm / password gate and the sign-and-broadcast tail. -/
def handleSendToken (env : TxEnv) (policy : Policy) (p : SendTokenInput) :
    Except String ToolOutputM × Bool :=
  match sendTokenPipeline env policy p with
  | .error e => (.error e, false)
  | .ok (fromAddr, symbol, fees) =>
  let summary := sendTokenPreview env p fromAddr symbol fees
  if p.confirm = false then
    (.ok { text := summary ++ "\nSet confirm=true and provide password to broadcast." }, false)
  else if p.password = "" then (.error "password required to sign", false)
  else
    match env.signAndSend with
    | .error e => (.error e, true)
    | .ok txHash =>
      let result := summary ++ "\n\nBroadcasted tx: " ++ txHash
      let result := if env.receiptLine ≠ "" then result ++ "\n" ++ env.receiptLine else result
      (.ok { text := result,
             blocks := [{ title := "ERC20 send",
                          items := [⟨"Chain", p.chain⟩, ⟨"From", env.addrHex fromAddr⟩,
                                    ⟨"To", p.to_⟩, ⟨"Token", p.token⟩,
                                    ⟨"Amount", p.amountTokens ++ " " ++ symbol⟩,
                                    ⟨"Tx", txHash⟩] }] }, true)

/-- The preview text composed by `handleApproveToken`. -/
def approveTokenPreview (env : TxEnv) (p : ApproveTokenInput) (fromAddr : Addr) (symbol : String)
    (fees : FeesM) : String :=
  "Preview ERC20 approval:\n- Token: " ++ p.token ++ " (" ++ symbol ++ ")" ++
  "\n- Chain: " ++ p.chain ++ "\n- From: " ++ env.addrHex fromAddr ++
  "\n- Spender: " ++ p.spender ++ "\n- Allowance: " ++ p.amountTokens ++ " " ++ symbol ++
  "\n- Gas limit: " ++ toString fees.gasLimit ++
  "\n- Max fee: " ++ env.weiToGwei fees.maxFeePerGas ++ " gwei" ++
  "\n- Max priority fee: " ++ env.weiToGwei fees.maxPriorityFee ++ " gwei" ++
  "\n- Estimated total (gas only): " ++ env.weiToEth fees.estimatedCostWei ++ " ETH\n"

/-- The fallible pre-gate pipeline of `handleApproveToken`: validate
the spender, token and amount, resolve `from` and the chain config,
query token metadata, build the `approve` calldata, validate the
zero-value intent against the policy, and build the unsigned
transaction. -/
def approveTokenPipeline (env : TxEnv) (policy : Policy) (p : ApproveTokenInput) :
    Except String (Addr × String × FeesM) :=
  match requireHexAddress "spender address" p.spender with
  | .error e => .error e
  | .ok spenderAddr =>
  match requireHexAddress "token address" p.token with
  | .error e => .error e
  | .ok tokenAddr =>
  if p.amountTokens = "" then .error "amount_tokens is required"
  else
  match prepareTxFrom env p.chain p.from_ with
  | .error e => .error e
  | .ok (fromAddr, _cfg) =>
  let meta := env.tokenMeta tokenAddr
  match env.decimalToWei p.amountTokens meta.1 with
  | none => .error "invalid amount_tokens"
  | some amountWei =>
  if amountWei ≤ 0 then .error "amount_tokens must be greater than zero"
  else
  match Validate (approveTokenIntent p.chain fromAddr tokenAddr spenderAddr amountWei) policy with
  | .error e => .error e
  | .ok _ =>
  match env.buildUnsignedTx (approveTokenIntent p.chain fromAddr tokenAddr spenderAddr amountWei) with
  | .error e => .error e
  | .ok fees => .ok (fromAddr, meta.2, fees)

/-- Embedding of `handleApproveToken`: the pipeline, then the preview /
confirm / password gate and the sign-and-broadcast tail. -/
def handleApproveToken (env : TxEnv) (policy : Policy) (p : ApproveTokenInput) :
    Except String ToolOutputM × Bool :=
  match approveTokenPipeline env policy p with
  | .error e => (.error e, false)
  | .ok (fromAddr, symbol, fees) =>
  let summary := approveTokenPreview env p fromAddr symbol fees
  if p.confirm = false then
    (.ok { text := summary ++ "\nSet confirm=true and provide password to broadcast." }, false)
  else if p.password = "" then (.error "password required to sign", false)
  else
    match env.signAndSend with
    | .error e => (.error e, true)
    | .ok txHash =>
      let result := summary ++ "\n\nBroadcasted tx: " ++ txHash
      let result := if env.receiptLine ≠ "" then result ++ "\n" ++ env.receiptLine else result
      (.ok { text := result,
             blocks := [{ title := "ERC20 approval",
                          items := [⟨"Chain", p.chain⟩, ⟨"From", env.addrHex fromAddr⟩,
                                    ⟨"Spender", p.spender⟩, ⟨"Token", p.token⟩,
                                    ⟨"Allowance", p.amountTokens ++ " " ++ symbol⟩,
                                    ⟨"Tx", txHash⟩] }] }, true)

/-! ## Agent orchestrator (Agent.ChatWithEvents)

The provider is modelled by the finite script of responses it returns
during one turn: the first entry answers `provider.Chat`, each further
entry answers one `ChatWithToolResults` continuation.  An exhausted
script models a turn cut off inside a provider call.  The tool registry
(`ExecuteTool`) is an oracle from tool name and raw input to the result
text or an error. -/

/-- Embedding of `llm.Message`. -/
structure MessageM where
  role : String
  content : String
deriving Repr, DecidableEq

/-- Embedding of `llm.ToolCall` (input kept as the raw JSON string). -/
structure ToolCallM where
  id : String
  name : String
  input : String
deriving Repr, DecidableEq

/-- Embedding of `llm.ToolResult`. -/
structure ToolResultM where
  toolUseID : String
  content : String
  isError : Bool
deriving Repr, DecidableEq

/-- Embedding of `llm.ChatResponse` (the fields the loop reads). -/
structure ChatResponseM where
  content : String
  toolCalls : List ToolCallM
deriving Repr, DecidableEq

/-- Embedding of `agent.ChatEvent`. -/
structure ChatEventM where
  type_ : String
  tool : String := ""
  args : String := ""
  content : String := ""
  isError : Bool := false
deriving Repr, DecidableEq

/-- Embedding of `executeToolCallsInternal` with event emission: run the
batch sequentially in input order, producing the tool results and the
`tool_call` / `tool_result` event pairs. -/
def executeToolCalls (toolExec : String → String → Except String String)
    (toolCalls : List ToolCallM) : List ToolResultM × List ChatEventM :=
  match toolCalls with
  | [] => ([], [])
  | tc :: rest =>
    let callEvent : ChatEventM := { type_ := "tool_call", tool := tc.name, args := tc.input }
    let (result, resultEvent) :=
      match toolExec tc.name tc.input with
      | .error e =>
        ({ toolUseID := tc.id, content := "Error: " ++ e, isError := true },
         ({ type_ := "tool_result", tool := tc.name, content := "Error: " ++ e,
            isError := true } : ChatEventM))
      | .ok text =>
        ({ toolUseID := tc.id, content := text, isError := false },
         ({ type_ := "tool_result", tool := tc.name, content := text,
            isError := false } : ChatEventM))
    let (results, events) := executeToolCalls toolExec rest
    (result :: results, callEvent :: resultEvent :: events)

/-- The `for len(response.ToolCalls) > 0` loop of `ChatWithEvents`:
execute the batch, ask the provider to continue, repeat; ends when the
provider returns no tool calls, the provider errors, or the script is
exhausted (a turn cut off inside a provider call). -/
def chatLoop (toolExec : String → String → Except String String) :
    ChatResponseM → List (Except String ChatResponseM) → List ChatEventM →
    List ChatEventM × Except String ChatResponseM
  | response, script, events =>
    if response.toolCalls.isEmpty then (events, .ok response)
    else
      let (_results, toolEvents) := executeToolCalls toolExec response.toolCalls
      match script with
      | [] => (events ++ toolEvents, .error "provider call did not complete")
      | .error e :: _ => (events ++ toolEvents, .error ("failed to continue conversation: " ++ e))
      | .ok response' :: rest => chatLoop toolExec response' rest (events ++ toolEvents)

/-- Embedding of `Agent.ChatWithEvents` for one turn: append the user
message, optionally emit the tools-disabled notice, run the first chat
call and the tool loop, and append the final assistant text only when it
is non-empty.  Returns the updated conversation and either the events of
the turn or the error (the Go method returns `nil` events on error,
while the mutated conversation keeps the appended user message). -/
def ChatWithEvents (toolExec : String → String → Except String String)
    (script : List (Except String ChatResponseM)) (supportsTools knownTools : Bool)
    (modelID : String) (conversation : List MessageM) (userMessage : String) :
    List MessageM × Except String (List ChatEventM) :=
  let conversation := conversation ++ [{ role := "user", content := userMessage }]
  let events : List ChatEventM :=
    if knownTools ∧ ¬ supportsTools then
      [{ type_ := "content",
         content := "Tools disabled for model " ++ modelID ++
           "; running without on-chain tools. Switch to a tool-capable model (e.g., openai/gpt-4o) for balances/wallet actions." }]
    else []
  match script with
  | [] => (conversation, .error "provider call did not complete")
  | .error e :: _ => (conversation, .error ("failed to get response: " ++ e))
  | .ok response :: rest =>
    match chatLoop toolExec response rest events with
    | (_, .error e) => (conversation, .error e)
    | (events, .ok response) =>
      if response.content ≠ "" then
        (conversation ++ [{ role := "assistant", content := response.content }],
         .ok (events ++ [{ type_ := "content", content := response.content }]))
      else
        (conversation, .ok events)

/-- Number of `tool_call` events emitted by a successful turn (0 when
the turn fails). -/
def chatTurnToolCallCount (toolExec : String → String → Except String String)
    (script : List (Except String ChatResponseM)) (supportsTools knownTools : Bool)
    (modelID : String) (conversation : List MessageM) (userMessage : String) : Nat :=
  match (ChatWithEvents toolExec script supportsTools knownTools modelID conversation userMessage).2 with
  | .ok events => events.countP (fun e => e.type_ == "tool_call")
  | .error _ => 0

/-- Whether the turn completed without an orchestrator error. -/
def chatTurnSucceeded (toolExec : String → String → Except String String)
    (script : List (Except String ChatResponseM)) (supportsTools knownTools : Bool)
    (modelID : String) (conversation : List MessageM) (userMessage : String) : Bool :=
  match (ChatWithEvents toolExec script supportsTools knownTools modelID conversation userMessage).2 with
  | .ok _ => true
  | .error _ => false

/-- Whether the turn surfaced any error-flagged event (or failed
outright). -/
def chatTurnHasErrorEvent (toolExec : String → String → Except String String)
    (script : List (Except String ChatResponseM)) (supportsTools knownTools : Bool)
    (modelID : String) (conversation : List MessageM) (userMessage : String) : Bool :=
  match (ChatWithEvents toolExec script supportsTools knownTools modelID conversation userMessage).2 with
  | .ok events => events.any (fun e => e.isError)
  | .error _ => true

/-- A provider response carrying one tool call and no text (used as the
repeated step of an unbounded tool loop). -/
def loopDemoResponse : ChatResponseM :=
  { content := "", toolCalls := [{ id := "1", name := "get_balances", input := "" }] }

/-- A final provider response with no tool calls. -/
def loopDemoFinal : ChatResponseM :=
  { content := "done", toolCalls := [] }

/-- A provider script that requests a tool call nine times before
finishing. -/
def loopDemoScript : List (Except String ChatResponseM) :=
  List.replicate 9 (.ok loopDemoResponse) ++ [.ok loopDemoFinal]

/-- An `ethereum` chain configuration with a single RPC URL, for
concrete evaluations. -/
def cfgEth : ChainConfigM :=
  { name := "ethereum", chainID := 1, rpcUrls := ["https://rpc.example"] }

/-- A client state declaring only `ethereum`, with an empty client
cache. -/
def stEth : ClientState :=
  { chains := [("ethereum", cfgEth)], clients := [] }

/-- A fully-succeeding oracle environment for the signing handlers. -/
def sendEnvEx : TxEnv :=
  { keystoreAccounts := .ok [1]
    chainConfig := fun _ => .ok cfgEth
    parseEthToWei := fun _ => some 10000000000000000
    decimalToWei := fun _ _ => some 5000000
    tokenMeta := fun _ => (18, "TOKEN")
    buildUnsignedTx := fun _ =>
      .ok { gasLimit := 21000, maxFeePerGas := 3, maxPriorityFee := 1,
            estimatedCostWei := 63000 }
    signAndSend := .ok "0xdeadbeef"
    receiptLine := ""
    addrHex := fun _ => "0x0000000000000000000000000000000000000001"
    weiToGwei := fun _ => "0.00"
    weiToEth := fun _ => "0.000000" }

/-- A confirmed `send_native` input with a password. -/
def sendNativeInputEx : SendNativeInput :=
  { to_ := "0x0000000000000000000000000000000000000002", chain := "ethereum",
    amountETH := "0.01", password := "pw", confirm := true }

/-- The same `send_native` input without confirmation. -/
def sendNativePreviewInputEx : SendNativeInput :=
  { to_ := "0x0000000000000000000000000000000000000002", chain := "ethereum",
    amountETH := "0.01", password := "", confirm := false }

/-- A `send_token` input (unconfirmed). -/
def sendTokenInputEx : SendTokenInput :=
  { to_ := "0x0000000000000000000000000000000000000002",
    token := "0x0000000000000000000000000000000000000003", chain := "ethereum",
    amountTokens := "5", password := "", confirm := false }

/-- An `approve_token` input (unconfirmed). -/
def approveTokenInputEx : ApproveTokenInput :=
  { spender := "0x0000000000000000000000000000000000000004",
    token := "0x0000000000000000000000000000000000000003", chain := "ethereum",
    amountTokens := "5", password := "", confirm := false }

/-- A zero-native-value intent aimed at a token contract, the common
shape built by `handleSendToken` and `handleApproveToken`. -/
def zeroValueIntent (chainName : String) (fromA tokenA : Addr) (d : List Nat) : Intent :=
  { chain := chainName, from_ := fromA, to_ := tokenA, valueWei := some 0, data := d }

/-! ## Theorems -/

/-- Claim C4: `Validate` fails iff one of the four conditions holds —
nil `value_wei`; `deny_to` contains `to`; `allow_to` non-empty and not
containing `to`; `max_per_tx_wei` set and exceeded — and the error
returned identifies the first condition that holds, in source order.
(The embedding is a pure function of the intent, reflecting that the Go
code receives the intent by value and never writes to it.) -/
theorem tx_validate_characterization (intent : Intent) (policy : Policy) :
    (Validate intent policy = .ok () ↔
      intent.valueWei ≠ none ∧
      policy.denyTo.contains intent.to_ = false ∧
      (policy.allowTo = [] ∨ policy.allowTo.contains intent.to_ = true) ∧
      (∀ m v, policy.maxPerTxWei = some m → intent.valueWei = some v → v ≤ m)) ∧
    (Validate intent policy = .error "value missing" ↔ intent.valueWei = none) ∧
    (Validate intent policy = .error "destination denied by policy" ↔
      intent.valueWei ≠ none ∧ policy.denyTo.contains intent.to_ = true) ∧
    (Validate intent policy = .error "destination not in allowlist" ↔
      intent.valueWei ≠ none ∧ policy.denyTo.contains intent.to_ = false ∧
      policy.allowTo ≠ [] ∧ policy.allowTo.contains intent.to_ = false) ∧
    (Validate intent policy = .error "value exceeds max per tx limit" ↔
      ∃ m v, policy.maxPerTxWei = some m ∧ intent.valueWei = some v ∧ m < v ∧
        policy.denyTo.contains intent.to_ = false ∧
        (policy.allowTo = [] ∨ policy.allowTo.contains intent.to_ = true)) := by
  unfold Validate
  rcases hv : intent.valueWei with _ | v
  · simp [hv]
  · rcases hd : policy.denyTo.contains intent.to_ with _ | _
    · by_cases ha : policy.allowTo ≠ [] ∧ ¬ policy.allowTo.contains intent.to_ = true
      · simp only [hv, hd, if_neg, if_pos ha, Bool.false_eq_true, if_false]
        rcases ha with ⟨ha1, ha2⟩
        simp_all
      · rcases hm : policy.maxPerTxWei with _ | m
        · simp only [hv, hd, Bool.false_eq_true, if_false, if_neg ha, hm]
          push_neg at ha
          simp_all
          tauto
        · by_cases hgt : v > m
          · simp only [hv, hd, Bool.false_eq_true, if_false, if_neg ha, hm, if_pos hgt]
            push_neg at ha
            simp_all
            tauto
          · simp only [hv, hd, Bool.false_eq_true, if_false, if_neg ha, hm, if_neg hgt]
            push_neg at ha
            simp_all
            tauto
    · simp only [hv, hd, if_pos, if_true]
      simp_all

/-- Claim C7 counterexample: for the present-but-negative input
`timeout_sec = -3` the handler uses the 120-second default, whereas
clamping `-3` into the interval 5..600 gives 5 — so the effective
timeout does not equal the clamped `timeout_sec`. -/
theorem wait_receipt_timeout_counterexample :
    waitReceiptTimeoutSec (-3) = 120 ∧ min 600 (max 5 (-3 : Int)) = 5 ∧ (120 : Int) ≠ 5 := by
  decide

/-- Claim C7 (amended): a positive `timeout_sec` is clamped into the
interval 5..600 seconds; an absent (zero-decoded) or non-positive
`timeout_sec` yields the 120-second default; the effective timeout
always lies in 5..600. -/
theorem wait_receipt_timeout_clamp (t : Int) :
    (0 < t → waitReceiptTimeoutSec t = min 600 (max 5 t)) ∧
    (t ≤ 0 → waitReceiptTimeoutSec t = 120) ∧
    5 ≤ waitReceiptTimeoutSec t ∧ waitReceiptTimeoutSec t ≤ 600 := by
  unfold waitReceiptTimeoutSec
  split_ifs <;> refine ⟨fun h1 => ?_, fun h2 => ?_, ?_, ?_⟩ <;> simp_all <;> omega

/-- Witness for claim C7's theorem at `timeout_sec = 7` and
`timeout_sec = -1`. -/
theorem wait_receipt_timeout_clamp_witness :
    waitReceiptTimeoutSec 7 = min 600 (max 5 7) ∧ waitReceiptTimeoutSec (-1) = 120 :=
  ⟨(wait_receipt_timeout_clamp 7).1 (by decide), (wait_receipt_timeout_clamp (-1)).2.1 (by decide)⟩

mutual

/-- Mutual helper for claim C8 over `JValue`. -/
theorem redactValue_spec_aux : ∀ v : JValue, RedactedV v (redactValue v)
  | .null => RedactedV.null
  | .bool b => RedactedV.bool b
  | .num q => RedactedV.num q
  | .str s => RedactedV.str s
  | .arr xs => RedactedV.arr (redactList_spec_aux xs)
  | .obj kvs => RedactedV.obj (redactObj_spec_aux kvs)

/-- Mutual helper for claim C8 over `JList`. -/
theorem redactList_spec_aux : ∀ xs : JList, RedactedL xs (redactList xs)
  | .nil => RedactedL.nil
  | .cons v rest => RedactedL.cons (redactValue_spec_aux v) (redactList_spec_aux rest)

/-- Mutual helper for claim C8 over `JObj`. -/
theorem redactObj_spec_aux : ∀ kvs : JObj, RedactedO kvs (redactObj kvs)
  | .nil => RedactedO.nil
  | .cons k v rest => by
      rw [redactObj]
      by_cases h : redactKeys.contains k.toLower = true
      · rw [if_pos h]
        exact RedactedO.consRedact h (redactObj_spec_aux rest)
      · rw [if_neg h]
        exact RedactedO.consKeep (by simpa using h) (redactValue_spec_aux v)
          (redactObj_spec_aux rest)

end

/-- Claim C8: the redactor's output stands in the specification relation
to its input — structurally identical except that the value of any
sensitive key (compared case-insensitively) is replaced by
`"***REDACTED***"`, recursively through objects and arrays, with all
other keys and values unchanged. -/
theorem redactValue_meets_spec (v : JValue) : RedactedV v (redactValue v) :=
  redactValue_spec_aux v

/-- Claim C10: a non-empty input that does not parse as JSON is returned
trimmed but otherwise unchanged — no redaction happens on malformed
JSON — and whitespace-only input yields the empty string. -/
theorem redactJSONArgs_nonjson_passthrough (parse : String → Option JValue)
    (marshal : JValue → String) (raw : String) :
    (trimSpace raw ≠ "" → parse (trimSpace raw) = none →
      RedactJSONArgs parse marshal raw = trimSpace raw) ∧
    (trimSpace raw = "" → RedactJSONArgs parse marshal raw = "") := by
  unfold RedactJSONArgs
  constructor
  · intro h hp
    simp [h, hp]
  · intro h
    simp [h]

/-- Witness for claim C10's theorem: a malformed-JSON input passes
through trimmed and unredacted; a whitespace-only input becomes empty. -/
theorem redactJSONArgs_nonjson_passthrough_witness :
    RedactJSONArgs (fun _ => none) (fun _ => "") " password=hunter2 " = "password=hunter2" ∧
    RedactJSONArgs (fun _ => none) (fun _ => "") "   " = "" :=
  ⟨by
    have h := (redactJSONArgs_nonjson_passthrough (fun _ => none) (fun _ => "")
      " password=hunter2 ").1 (by decide) rfl
    simpa using h,
   (redactJSONArgs_nonjson_passthrough (fun _ => none) (fun _ => "") "   ").2 (by decide)⟩

/-- Claim C3 counterexample: with the environment and user config
empty and the store holding an OAuth credential whose `access_token` is
`"tok"` (`key` empty, as the program persists OAuth credentials),
`GetAPIKey` fails with the credential-missing error instead of returning
the access token. -/
theorem auth_getAPIKey_oauth_counterexample :
    (fun _ : String => (Except.ok { type_ := .oauth, accessToken := "tok" } :
        Except String Credential)) "copilot"
      = .ok { type_ := .oauth, accessToken := "tok" : Credential } ∧
    GetAPIKey (fun _ => "") (fun _ => "")
      (fun _ => .ok { type_ := .oauth, accessToken := "tok" }) "copilot"
      = .error "no API key found for provider: copilot" ∧
    GetAPIKey (fun _ => "") (fun _ => "")
      (fun _ => .ok { type_ := .oauth, accessToken := "tok" }) "copilot"
      ≠ .ok "tok" := by
  refine ⟨rfl, rfl, ?_⟩
  intro h
  exact Except.noConfusion h

/-- Claim C3 (amended): when the provider's environment variable is
unset or empty and the user-config key resolves to empty, `GetAPIKey`
falls back to the credential store and returns the stored credential's
`key` field when it is non-empty (the case for `kind=api` credentials);
in every other case — credential absent, or credential with an empty
`key`, which is how OAuth credentials are persisted — it fails with the
credential-missing error.  The `access_token` of an OAuth credential is
never returned by this resolver. -/
theorem auth_getAPIKey_store_fallback (getenv viperGet : String → String)
    (store : String → Except String Credential) (id : String)
    (henv : getenv (EnvVarForProvider id) = "")
    (hcfg : viperGet ("llm.providers." ++ id ++ ".api_key") = "" ∨
      resolveEnvSubstitution getenv (viperGet ("llm.providers." ++ id ++ ".api_key")) = "") :
    (∀ cred, store id = .ok cred → cred.key ≠ "" →
      GetAPIKey getenv viperGet store id = .ok cred.key) ∧
    (∀ cred, store id = .ok cred → cred.key = "" →
      GetAPIKey getenv viperGet store id = .error ("no API key found for provider: " ++ id)) ∧
    (∀ e, store id = .error e →
      GetAPIKey getenv viperGet store id = .error ("no API key found for provider: " ++ id)) := by
  unfold GetAPIKey
  have h1 : ¬ (EnvVarForProvider id ≠ "" ∧ getenv (EnvVarForProvider id) ≠ "") := by
    intro h
    exact h.2 henv
  rw [if_neg h1]
  have h2 : ¬ (viperGet ("llm.providers." ++ id ++ ".api_key") ≠ "" ∧
      resolveEnvSubstitution getenv (viperGet ("llm.providers." ++ id ++ ".api_key")) ≠ "") := by
    rcases hcfg with h | h
    · intro hc
      exact hc.1 h
    · intro hc
      exact hc.2 h
  rw [if_neg h2]
  refine ⟨?_, ?_, ?_⟩
  · intro cred hs hk
    rw [hs]
    simp [hk]
  · intro cred hs hk
    rw [hs]
    simp [hk]
  · intro e hs
    rw [hs]

/-- Witness for claim C3's theorem: with empty environment and config
and a stored API-key credential, the stored key is returned. -/
theorem auth_getAPIKey_store_fallback_witness :
    GetAPIKey (fun _ => "") (fun _ => "")
      (fun _ => .ok { type_ := .api, key := "sk-stored" }) "openai" = .ok "sk-stored" :=
  (auth_getAPIKey_store_fallback (fun _ => "") (fun _ => "")
      (fun _ => .ok { type_ := .api, key := "sk-stored" }) "openai" rfl (.inl rfl)).1
    { type_ := .api, key := "sk-stored" } rfl (by decide)

/-- Claim C6: a chat turn extends the conversation by exactly the one
user message, plus at most one assistant message carrying the final
non-empty assistant text; tool-call and tool-result sub-messages are
never appended to the visible conversation. -/
theorem agent_chat_conversation_append
    (toolExec : String → String → Except String String)
    (script : List (Except String ChatResponseM)) (supportsTools knownTools : Bool)
    (modelID : String) (conversation : List MessageM) (userMessage : String) :
    (ChatWithEvents toolExec script supportsTools knownTools modelID conversation userMessage).1
        = conversation ++ [{ role := "user", content := userMessage }] ∨
    ∃ c, c ≠ "" ∧
      (ChatWithEvents toolExec script supportsTools knownTools modelID conversation userMessage).1
        = conversation ++ [{ role := "user", content := userMessage },
                           { role := "assistant", content := c }] := by
  unfold ChatWithEvents
  rcases script with _ | ⟨r, rest⟩
  · left
    rfl
  · rcases r with e | resp
    · left
      rfl
    · simp only []
      split
      · left
        rfl
      · rename_i events response heq
        split
        · rename_i hcontent
          right
          exact ⟨response.content, hcontent, by simp⟩
        · left
          rfl

/-- Claim C2 (code bug evidence): with a provider that returns a
tool-call-bearing response nine times before finishing, the turn
executes all nine tool calls and completes without any error event —
the loop exits only because the provider stopped requesting tools, not
after a budget of eight. -/
theorem agent_chat_tool_loop_unbounded :
    chatTurnToolCallCount (fun _ _ => .ok "ok") loopDemoScript
      true true "m" [] "check all my balances" = 9 ∧
    chatTurnSucceeded (fun _ _ => .ok "ok") loopDemoScript
      true true "m" [] "check all my balances" = true ∧
    chatTurnHasErrorEvent (fun _ _ => .ok "ok") loopDemoScript
      true true "m" [] "check all my balances" = false := by
  refine ⟨?_, ?_, ?_⟩ <;> decide

/-- Validation outcome of a zero-value intent aimed at a token
contract: the deny/allow lists see the token address and the spend
limit fires exactly for a negative configured limit. -/
theorem validate_zero_value (chainName : String) (fromA tokenA : Addr) (d : List Nat)
    (policy : Policy) :
    (Validate (zeroValueIntent chainName fromA tokenA d) policy
        = .error "destination denied by policy" ↔
      policy.denyTo.contains tokenA = true) ∧
    (Validate (zeroValueIntent chainName fromA tokenA d) policy
        = .error "value exceeds max per tx limit" ↔
      ∃ m, policy.maxPerTxWei = some m ∧ m < 0 ∧
        policy.denyTo.contains tokenA = false ∧
        (policy.allowTo = [] ∨ policy.allowTo.contains tokenA = true)) := by
  rcases hd : policy.denyTo.contains tokenA with _ | _
  · by_cases ha : policy.allowTo ≠ [] ∧ ¬ policy.allowTo.contains tokenA = true
    · have hval : Validate (zeroValueIntent chainName fromA tokenA d) policy
          = .error "destination not in allowlist" := by
        unfold Validate zeroValueIntent
        simp only [hd, Bool.false_eq_true, if_false]
        rw [if_pos ha]
      rw [hval]
      rcases ha with ⟨ha1, ha2⟩
      constructor
      · constructor
        · intro h
          exact absurd h (by simp)
        · intro h
          exact absurd h (by simp)
      · constructor
        · intro h
          exact absurd h (by simp)
        · rintro ⟨m2, hm2, hlt, hdf, hall⟩
          rcases hall with h | h
          · exact absurd h ha1
          · exact absurd h ha2
    · rcases hm : policy.maxPerTxWei with _ | m
      · have hval : Validate (zeroValueIntent chainName fromA tokenA d) policy = .ok () := by
          unfold Validate zeroValueIntent
          simp only [hd, Bool.false_eq_true, if_false, if_neg ha, hm]
        rw [hval]
        constructor
        · constructor
          · intro h
            exact absurd h (by simp)
          · intro h
            exact absurd h (by simp)
        · constructor
          · intro h
            exact absurd h (by simp)
          · rintro ⟨m2, hm2, _, _, _⟩
            exact Option.noConfusion hm2
      · by_cases hgt : (0 : Int) > m
        · have hval : Validate (zeroValueIntent chainName fromA tokenA d) policy
              = .error "value exceeds max per tx limit" := by
            unfold Validate zeroValueIntent
            simp only [hd, Bool.false_eq_true, if_false, if_neg ha, hm]
            rw [if_pos hgt]
          rw [hval]
          push_neg at ha
          constructor
          · constructor
            · intro h
              exact absurd h (by simp)
            · intro h
              exact absurd h (by simp)
          · constructor
            · intro _
              refine ⟨m, rfl, by omega, rfl, ?_⟩
              by_cases hA : policy.allowTo = []
              · exact .inl hA
              · exact .inr (ha hA)
            · intro _
              rfl
        · have hval : Validate (zeroValueIntent chainName fromA tokenA d) policy = .ok () := by
            unfold Validate zeroValueIntent
            simp only [hd, Bool.false_eq_true, if_false, if_neg ha, hm]
            rw [if_neg hgt]
          rw [hval]
          constructor
          · constructor
            · intro h
              exact absurd h (by simp)
            · intro h
              exact absurd h (by simp)
          · constructor
            · intro h
              exact absurd h (by simp)
            · rintro ⟨m2, hm2, hlt, _, _⟩
              injection hm2 with he
              omega
  · have hval : Validate (zeroValueIntent chainName fromA tokenA d) policy
        = .error "destination denied by policy" := by
      unfold Validate zeroValueIntent
      simp [hd]
      intro hmem
      simp at hd
      exact absurd hd hmem
    rw [hval]
    constructor
    · simp
    · constructor
      · intro h
        exact absurd h (by simp)
      · rintro ⟨m2, hm2, hlt, hdf, hall⟩
        simp at hdf

/-- Claim C9 counterexample: because token-send and token-approval
intents carry `value_wei = 0`, a configured negative per-transaction
limit (reachable via a negative `CLIFI_MAX_TX_ETH`) rejects every token
transfer and approval — so it is not true that a configured
`max_per_tx_wei` spend limit never rejects them. -/
theorem token_intent_negative_limit_counterexample :
    Validate (sendTokenIntent "ethereum" 1 2 3 5) { maxPerTxWei := some (-1) }
      = .error "value exceeds max per tx limit" ∧
    Validate (approveTokenIntent "ethereum" 1 2 4 5) { maxPerTxWei := some (-1) }
      = .error "value exceeds max per tx limit" :=
  ⟨rfl, rfl⟩

/-- Claim C9 (amended): the intents validated by `send_token` and
`approve_token` have `to` equal to the token contract and
`value_wei = 0`; policy validation is therefore independent of the
token amount, the deny list is evaluated against the token contract
(never the recipient or spender), and the spend-limit check rejects
exactly when the configured limit is negative — a non-negative
`max_per_tx_wei` never rejects a token transfer or approval. -/
theorem token_intent_policy_target (chainName : String)
    (fromAddr tokenAddr toAddr spenderAddr : Addr) (amountWei : Int) (policy : Policy) :
    (sendTokenIntent chainName fromAddr tokenAddr toAddr amountWei).to_ = tokenAddr ∧
    (sendTokenIntent chainName fromAddr tokenAddr toAddr amountWei).valueWei = some 0 ∧
    (approveTokenIntent chainName fromAddr tokenAddr spenderAddr amountWei).to_ = tokenAddr ∧
    (approveTokenIntent chainName fromAddr tokenAddr spenderAddr amountWei).valueWei = some 0 ∧
    (∀ a', Validate (sendTokenIntent chainName fromAddr tokenAddr toAddr a') policy
      = Validate (sendTokenIntent chainName fromAddr tokenAddr toAddr amountWei) policy) ∧
    (∀ a', Validate (approveTokenIntent chainName fromAddr tokenAddr spenderAddr a') policy
      = Validate (approveTokenIntent chainName fromAddr tokenAddr spenderAddr amountWei) policy) ∧
    (Validate (sendTokenIntent chainName fromAddr tokenAddr toAddr amountWei) policy
        = .error "destination denied by policy" ↔
      policy.denyTo.contains tokenAddr = true) ∧
    (Validate (sendTokenIntent chainName fromAddr tokenAddr toAddr amountWei) policy
        = .error "value exceeds max per tx limit" ↔
      ∃ m, policy.maxPerTxWei = some m ∧ m < 0 ∧
        policy.denyTo.contains tokenAddr = false ∧
        (policy.allowTo = [] ∨ policy.allowTo.contains tokenAddr = true)) ∧
    (Validate (approveTokenIntent chainName fromAddr tokenAddr spenderAddr amountWei) policy
        = .error "value exceeds max per tx limit" ↔
      ∃ m, policy.maxPerTxWei = some m ∧ m < 0 ∧
        policy.denyTo.contains tokenAddr = false ∧
        (policy.allowTo = [] ∨ policy.allowTo.contains tokenAddr = true)) := by
  refine ⟨rfl, rfl, rfl, rfl, fun a' => rfl, fun a' => rfl, ?_, ?_, ?_⟩
  · exact (validate_zero_value chainName fromAddr tokenAddr
      (buildERC20TransferData toAddr amountWei) policy).1
  · exact (validate_zero_value chainName fromAddr tokenAddr
      (buildERC20TransferData toAddr amountWei) policy).2
  · exact (validate_zero_value chainName fromAddr tokenAddr
      (buildERC20ApproveData spenderAddr amountWei) policy).2

/-- Associativity of string concatenation (helper). -/
theorem strAppendAssoc (a b c : String) : (a ++ b) ++ c = a ++ (b ++ c) := by
  rcases a with ⟨la⟩
  rcases b with ⟨lb⟩
  rcases c with ⟨lc⟩
  exact congrArg String.mk (List.append_assoc la lb lc)

/-- A client returned by the URL loop reports the declared chain id. -/
theorem tryRPCURLs_ok_chainID (dial : String → DialResult) (config : ChainConfigM) :
    ∀ (urls : List String) (lastErr : Option String) (client : EthClientM),
      tryRPCURLs dial config urls lastErr = .ok client →
      client.reportedChainID = config.chainID := by
  intro urls
  induction urls with
  | nil =>
    intro lastErr client h
    simp [tryRPCURLs] at h
  | cons url rest ih =>
    intro lastErr client h
    simp only [tryRPCURLs] at h
    rcases hdial : dial url with e1 | e1 | id <;> simp only [hdial] at h
    · exact ih _ _ h
    · exact ih _ _ h
    · by_cases hid : id ≠ config.chainID
      · rw [if_pos hid] at h
        exact ih _ _ h
      · rw [if_neg hid] at h
        push_neg at hid
        cases h
        simpa using hid

/-- Every error produced by the URL loop wraps the chain name. -/
theorem tryRPCURLs_error_shape (dial : String → DialResult) (config : ChainConfigM) :
    ∀ (urls : List String) (lastErr : Option String) (e : String),
      tryRPCURLs dial config urls lastErr = .error e →
      ∃ rest, e = "failed to connect to " ++ config.name ++ ": " ++ rest := by
  intro urls
  induction urls with
  | nil =>
    intro lastErr e h
    simp only [tryRPCURLs] at h
    cases h
    exact ⟨_, rfl⟩
  | cons url rest ih =>
    intro lastErr e h
    simp only [tryRPCURLs] at h
    rcases hdial : dial url with e1 | e1 | id <;> simp only [hdial] at h
    · exact ih _ _ h
    · exact ih _ _ h
    · by_cases hid : id ≠ config.chainID
      · rw [if_pos hid] at h
        exact ih _ _ h
      · rw [if_neg hid] at h
        exact Except.noConfusion h

/-- When no URL verifies, the URL loop fails with the final `lastErr`
wrapped with the chain name. -/
theorem tryRPCURLs_all_fail (dial : String → DialResult) (config : ChainConfigM) :
    ∀ (urls : List String) (lastErr : Option String),
      (∀ u ∈ urls, urlVerifies dial config u = false) →
      tryRPCURLs dial config urls lastErr =
        .error ("failed to connect to " ++ config.name ++ ": "
          ++ (lastRPCErr dial config urls lastErr).getD "%!w(<nil>)") := by
  intro urls
  induction urls with
  | nil =>
    intro lastErr _
    simp [tryRPCURLs, lastRPCErr]
  | cons url rest ih =>
    intro lastErr hall
    have hu : urlVerifies dial config url = false := hall url (by simp)
    have hrest : ∀ u ∈ rest, urlVerifies dial config u = false :=
      fun u hu2 => hall u (by simp [hu2])
    simp only [tryRPCURLs, lastRPCErr]
    rcases hdial : dial url with e1 | e1 | id <;> simp only [hdial]
    · exact ih _ hrest
    · exact ih _ hrest
    · by_cases hid : id ≠ config.chainID
      · rw [if_pos hid, if_pos hid]
        exact ih _ hrest
      · exfalso
        push_neg at hid
        have : urlVerifies dial config url = true := by
          simp [urlVerifies, hdial, hid]
        rw [hu] at this
        exact Bool.noConfusion this

/-- When the last URL is a chain-id mismatch, the final `lastErr` message
starts with `"chain ID mismatch"`. -/
theorem lastRPCErr_mismatch_last (dial : String → DialResult) (config : ChainConfigM)
    (lastUrl : String) (hmis : dialMismatch dial config lastUrl = true) :
    ∀ (urls0 : List String) (lastErr : Option String),
      ∃ b, lastRPCErr dial config (urls0 ++ [lastUrl]) lastErr
        = some ("chain ID mismatch" ++ b) := by
  intro urls0
  induction urls0 with
  | nil =>
    intro lastErr
    unfold dialMismatch at hmis
    rcases hdial : dial lastUrl with e1 | e1 | id <;> rw [hdial] at hmis
    · exact Bool.noConfusion hmis
    · exact Bool.noConfusion hmis
    · have hid : id ≠ config.chainID := by simpa using hmis
      refine ⟨": expected " ++ toString config.chainID ++ ", got " ++ toString id, ?_⟩
      simp only [List.nil_append, lastRPCErr, hdial, if_pos hid]
      have h0 : "chain ID mismatch: expected "
          = "chain ID mismatch" ++ ": expected " := rfl
      simp only [h0, strAppendAssoc]
  | cons u urls0 ih =>
    intro lastErr
    simp only [List.cons_append, lastRPCErr]
    rcases hdial : dial u with e1 | e1 | id <;> simp only [hdial]
    · exact ih _
    · exact ih _
    · by_cases hid : id ≠ config.chainID
      · rw [if_pos hid]
        exact ih _
      · rw [if_neg hid]
        exact ih _

/-- Claim C5 counterexample: with one RPC URL whose endpoint reports
chain id 5 against declared id 1, `getClient` fails with an error that
wraps the chain name and contains `"chain ID mismatch"`, but the error
does not name the attempted URL. -/
theorem chain_getClient_error_omits_urls :
    (getClient (fun _ => DialResult.connected 5) stEth "ethereum").1
      = .error "failed to connect to ethereum: chain ID mismatch: expected 1, got 5" ∧
    strSub "https://rpc.example"
      "failed to connect to ethereum: chain ID mismatch: expected 1, got 5" = false := by
  exact ⟨rfl, by decide⟩

/-- Claim C5 (amended): starting from a consistent cache, `getClient`
preserves the invariant that every cached client's verified chain id
equals its chain's declared `chain_id`; every successfully returned
client reports the declared chain id (mismatching URLs are skipped);
when every URL fails the error wraps the chain name, and when the last
failure was a chain-id mismatch the error contains
`"chain ID mismatch"`.  The error does not name the attempted URLs. -/
theorem chain_getClient_verified_cache (dial : String → DialResult) (st : ClientState)
    (chainName : String) (hcc : CacheConsistent st) :
    CacheConsistent (getClient dial st chainName).2 ∧
    (∀ client config, (getClient dial st chainName).1 = .ok (client, config) →
      client.reportedChainID = config.chainID ∧
      st.chains.lookup chainName = some config) ∧
    (∀ e, (getClient dial st chainName).1 = .error e →
      (st.chains.lookup chainName = none ∧ e = "unknown chain: " ++ chainName) ∨
      ∃ config rest, st.chains.lookup chainName = some config ∧
        st.clients.lookup chainName = none ∧
        e = "failed to connect to " ++ config.name ++ ": " ++ rest) ∧
    (∀ config, st.chains.lookup chainName = some config →
      st.clients.lookup chainName = none →
      (∀ u ∈ config.rpcUrls, urlVerifies dial config u = false) →
      ∀ urls0 lastUrl, config.rpcUrls = urls0 ++ [lastUrl] →
        dialMismatch dial config lastUrl = true →
        ∃ b, (getClient dial st chainName).1 =
          .error ("failed to connect to " ++ config.name ++ ": "
            ++ ("chain ID mismatch" ++ b))) := by
  rcases hchain : st.chains.lookup chainName with _ | config
  · have hg : getClient dial st chainName = (.error ("unknown chain: " ++ chainName), st) := by
      unfold getClient
      rw [hchain]
    rw [hg]
    refine ⟨hcc, ?_, ?_, ?_⟩
    · intro client config h
      exact Except.noConfusion h
    · intro e h
      injection h with h2
      exact .inl ⟨rfl, h2.symm⟩
    · intro config hc
      exact Option.noConfusion hc
  · rcases hcached : st.clients.lookup chainName with _ | client0
    · rcases htry : tryRPCURLs dial config config.rpcUrls none with e0 | client1
      · have hg : getClient dial st chainName = (.error e0, st) := by
          unfold getClient
          simp only [hchain, hcached, htry]
        rw [hg]
        refine ⟨hcc, ?_, ?_, ?_⟩
        · intro client config2 h
          exact Except.noConfusion h
        · intro e h
          injection h with h2
          subst h2
          rcases tryRPCURLs_error_shape dial config config.rpcUrls none e0 htry with ⟨rest, hr⟩
          exact .inr ⟨config, rest, rfl, rfl, hr⟩
        · intro config2 hc hnone hall urls0 lastUrl hsplit hmis
          injection hc with hc2
          subst hc2
          have hfail := tryRPCURLs_all_fail dial config config.rpcUrls none hall
          rcases lastRPCErr_mismatch_last dial config lastUrl hmis urls0 none with ⟨b, hb⟩
          rw [hsplit] at hfail
          rw [hb] at hfail
          rw [← hsplit] at hfail
          rw [htry] at hfail
          injection hfail with h3
          refine ⟨b, ?_⟩
          rw [h3]
          rfl
      · have hg : getClient dial st chainName =
            (.ok (client1, config),
             { st with clients := (chainName, client1) :: st.clients }) := by
          unfold getClient
          simp only [hchain, hcached, htry]
        rw [hg]
        have hid1 : client1.reportedChainID = config.chainID :=
          tryRPCURLs_ok_chainID dial config config.rpcUrls none client1 htry
        refine ⟨?_, ?_, ?_, ?_⟩
        · intro name cl cfg hcl hcfg
          by_cases hname : name = chainName
          · subst hname
            have hbeq : (name == name) = true := by simp
            simp only [List.lookup, hbeq, Option.some.injEq] at hcl
            subst hcl
            rw [hchain] at hcfg
            injection hcfg with hcfg2
            subst hcfg2
            exact hid1
          · have hbeq : (name == chainName) = false := by simp [hname]
            simp only [List.lookup, hbeq] at hcl
            exact hcc name cl cfg hcl hcfg
        · intro client config2 h
          injection h with h2
          injection h2 with h3 h4
          subst h3
          subst h4
          exact ⟨hid1, rfl⟩
        · intro e h
          exact Except.noConfusion h
        · intro config2 hc hnone hall urls0 lastUrl hsplit hmis
          injection hc with hc2
          subst hc2
          have hfail := tryRPCURLs_all_fail dial config config.rpcUrls none hall
          rw [htry] at hfail
          exact Except.noConfusion hfail
    · have hg : getClient dial st chainName = (.ok (client0, config), st) := by
        unfold getClient
        simp only [hchain, hcached]
      rw [hg]
      refine ⟨hcc, ?_, ?_, ?_⟩
      · intro client config2 h
        injection h with h2
        injection h2 with h3 h4
        subst h3
        subst h4
        exact ⟨hcc chainName client0 config hcached hchain, rfl⟩
      · intro e h
        exact Except.noConfusion h
      · intro config2 hc hnone hall urls0 lastUrl hsplit hmis
        exact Option.noConfusion hnone

/-- Witness for claim C5's theorem: a single mismatching URL yields the
wrapped chain-ID-mismatch error. -/
theorem chain_getClient_verified_cache_witness :
    ∃ b, (getClient (fun _ => DialResult.connected 5) stEth "ethereum").1 =
      .error ("failed to connect to " ++ cfgEth.name ++ ": " ++ ("chain ID mismatch" ++ b)) :=
  (chain_getClient_verified_cache (fun _ => DialResult.connected 5) stEth "ethereum"
      (fun name cl cfg hcl hcfg => by simp [stEth, List.lookup] at hcl)).2.2.2
    cfgEth (by rfl) (by rfl) (by decide) [] "https://rpc.example" rfl (by decide)

/-- The `send_native` handler reaches the signing step only with
`confirm=true` and a non-empty password (helper for claim C1). -/
theorem sendNative_flag (env : TxEnv) (policy : Policy) (p : SendNativeInput) :
    (handleSendNative env policy p).2 = true → p.confirm = true ∧ p.password ≠ "" := by
  intro h
  unfold handleSendNative at h
  rcases hP : sendNativePipeline env policy p with e | pr
  · rw [hP] at h
    simp at h
  · rcases pr with ⟨fromAddr, fees⟩
    rw [hP] at h
    simp only [] at h
    repeat' split at h
    all_goals simp_all

/-- Without `confirm=true`, `send_native` never signs and any successful
result is the preview plus a re-invoke instruction (helper for claim
C1). -/
theorem sendNative_preview_gate (env : TxEnv) (policy : Policy) (p : SendNativeInput)
    (hc : p.confirm = false) :
    (handleSendNative env policy p).2 = false ∧
    ∀ out, (handleSendNative env policy p).1 = .ok out → ∃ s,
      out.text = s ++ "\nSet confirm=true and provide password to sign and broadcast." ∨
      out.text = s ++ "\nSet confirm=true to sign and broadcast." := by
  unfold handleSendNative
  rcases hP : sendNativePipeline env policy p with e | pr
  · constructor
    · rfl
    · intro out hout
      simp at hout
  · rcases pr with ⟨fromAddr, fees⟩
    constructor
    · simp only [hc]
      rw [if_pos trivial]
      split <;> rfl
    · intro out hout
      simp only [hc] at hout
      rw [if_pos trivial] at hout
      split at hout
      · injection hout with h2
        subst h2
        exact ⟨_, Or.inl rfl⟩
      · injection hout with h2
        subst h2
        exact ⟨_, Or.inr rfl⟩

/-- With `confirm=true` but an empty password, `send_native` fails
without signing; when the preview stage succeeds the error is exactly
the password-required error (helper for claim C1). -/
theorem sendNative_password_required (env : TxEnv) (policy : Policy) (p : SendNativeInput)
    (hc : p.confirm = true) (hp : p.password = "") :
    (handleSendNative env policy p).2 = false ∧
    (∀ out, (handleSendNative env policy p).1 ≠ .ok out) ∧
    (∀ out0, (handleSendNative env policy { p with confirm := false }).1 = .ok out0 →
      (handleSendNative env policy p).1 = .error "password required to sign") := by
  have hPP : sendNativePipeline env policy { p with confirm := false }
      = sendNativePipeline env policy p := rfl
  unfold handleSendNative
  rcases hP : sendNativePipeline env policy p with e | pr
  · refine ⟨rfl, ?_, ?_⟩
    · intro out h
      simp at h
    · intro out0 h0
      rw [hPP, hP] at h0
      simp at h0
  · rcases pr with ⟨fromAddr, fees⟩
    refine ⟨?_, ?_, ?_⟩
    · simp [hc, hp]
    · intro out h
      simp [hc, hp] at h
    · intro out0 h0
      simp [hc, hp]

/-- Gate helper for `send_token` (claim C1): signing requires
`confirm=true` and a non-empty password. -/
theorem sendToken_flag (env : TxEnv) (policy : Policy) (p : SendTokenInput) :
    (handleSendToken env policy p).2 = true → p.confirm = true ∧ p.password ≠ "" := by
  intro h
  unfold handleSendToken at h
  rcases hP : sendTokenPipeline env policy p with e | pr
  · rw [hP] at h
    simp at h
  · rcases pr with ⟨fromAddr, symbol, fees⟩
    rw [hP] at h
    simp only [] at h
    repeat' split at h
    all_goals simp_all

/-- Without `confirm=true`, `send_token` never signs and any successful
result is the preview plus a re-invoke instruction (helper for claim
C1). -/
theorem sendToken_preview_gate (env : TxEnv) (policy : Policy) (p : SendTokenInput)
    (hc : p.confirm = false) :
    (handleSendToken env policy p).2 = false ∧
    ∀ out, (handleSendToken env policy p).1 = .ok out → ∃ s,
      out.text = s ++ "\nSet confirm=true and provide password to broadcast." := by
  unfold handleSendToken
  rcases hP : sendTokenPipeline env policy p with e | pr
  · constructor
    · rfl
    · intro out hout
      simp at hout
  · rcases pr with ⟨fromAddr, symbol, fees⟩
    constructor
    · simp only [hc]
      rw [if_pos trivial]
    · intro out hout
      simp only [hc] at hout
      rw [if_pos trivial] at hout
      injection hout with h2
      subst h2
      exact ⟨_, rfl⟩

/-- With `confirm=true` but an empty password, `send_token` fails
without signing; when the preview stage succeeds the error is exactly
the password-required error (helper for claim C1). -/
theorem sendToken_password_required (env : TxEnv) (policy : Policy) (p : SendTokenInput)
    (hc : p.confirm = true) (hp : p.password = "") :
    (handleSendToken env policy p).2 = false ∧
    (∀ out, (handleSendToken env policy p).1 ≠ .ok out) ∧
    (∀ out0, (handleSendToken env policy { p with confirm := false }).1 = .ok out0 →
      (handleSendToken env policy p).1 = .error "password required to sign") := by
  have hPP : sendTokenPipeline env policy { p with confirm := false }
      = sendTokenPipeline env policy p := rfl
  unfold handleSendToken
  rcases hP : sendTokenPipeline env policy p with e | pr
  · refine ⟨rfl, ?_, ?_⟩
    · intro out h
      simp at h
    · intro out0 h0
      rw [hPP, hP] at h0
      simp at h0
  · rcases pr with ⟨fromAddr, symbol, fees⟩
    refine ⟨?_, ?_, ?_⟩
    · simp [hc, hp]
    · intro out h
      simp [hc, hp] at h
    · intro out0 h0
      simp [hc, hp]

/-- Gate helper for `approve_token` (claim C1): signing requires
`confirm=true` and a non-empty password. -/
theorem approveToken_flag (env : TxEnv) (policy : Policy) (p : ApproveTokenInput) :
    (handleApproveToken env policy p).2 = true → p.confirm = true ∧ p.password ≠ "" := by
  intro h
  unfold handleApproveToken at h
  rcases hP : approveTokenPipeline env policy p with e | pr
  · rw [hP] at h
    simp at h
  · rcases pr with ⟨fromAddr, symbol, fees⟩
    rw [hP] at h
    simp only [] at h
    repeat' split at h
    all_goals simp_all

/-- Without `confirm=true`, `approve_token` never signs and any
successful result is the preview plus a re-invoke instruction (helper
for claim C1). -/
theorem approveToken_preview_gate (env : TxEnv) (policy : Policy) (p : ApproveTokenInput)
    (hc : p.confirm = false) :
    (handleApproveToken env policy p).2 = false ∧
    ∀ out, (handleApproveToken env policy p).1 = .ok out → ∃ s,
      out.text = s ++ "\nSet confirm=true and provide password to broadcast." := by
  unfold handleApproveToken
  rcases hP : approveTokenPipeline env policy p with e | pr
  · constructor
    · rfl
    · intro out hout
      simp at hout
  · rcases pr with ⟨fromAddr, symbol, fees⟩
    constructor
    · simp only [hc]
      rw [if_pos trivial]
    · intro out hout
      simp only [hc] at hout
      rw [if_pos trivial] at hout
      injection hout with h2
      subst h2
      exact ⟨_, rfl⟩

/-- With `confirm=true` but an empty password, `approve_token` fails
without signing; when the preview stage succeeds the error is exactly
the password-required error (helper for claim C1). -/
theorem approveToken_password_required (env : TxEnv) (policy : Policy) (p : ApproveTokenInput)
    (hc : p.confirm = true) (hp : p.password = "") :
    (handleApproveToken env policy p).2 = false ∧
    (∀ out, (handleApproveToken env policy p).1 ≠ .ok out) ∧
    (∀ out0, (handleApproveToken env policy { p with confirm := false }).1 = .ok out0 →
      (handleApproveToken env policy p).1 = .error "password required to sign") := by
  have hPP : approveTokenPipeline env policy { p with confirm := false }
      = approveTokenPipeline env policy p := rfl
  unfold handleApproveToken
  rcases hP : approveTokenPipeline env policy p with e | pr
  · refine ⟨rfl, ?_, ?_⟩
    · intro out h
      simp at h
    · intro out0 h0
      rw [hPP, hP] at h0
      simp at h0
  · rcases pr with ⟨fromAddr, symbol, fees⟩
    refine ⟨?_, ?_, ?_⟩
    · simp [hc, hp]
    · intro out h
      simp [hc, hp] at h
    · intro out0 h0
      simp [hc, hp]

/-- Claim C1: for each of `send_native`, `send_token` and
`approve_token`, a signing/broadcast attempt happens only with
`confirm=true` and a non-empty password; without `confirm=true` the
handler returns the preview text followed by an instruction to
re-invoke with `confirm=true` and does not sign; with `confirm=true`
and an empty password it fails — with exactly the password-required
error whenever the preview stage succeeds — without signing or
broadcasting. -/
theorem tools_signing_confirmation_gate (env : TxEnv) (policy : Policy)
    (pn : SendNativeInput) (pt : SendTokenInput) (pa : ApproveTokenInput) :
    ((handleSendNative env policy pn).2 = true → pn.confirm = true ∧ pn.password ≠ "") ∧
    (pn.confirm = false → (handleSendNative env policy pn).2 = false ∧
      ∀ out, (handleSendNative env policy pn).1 = .ok out → ∃ s,
        out.text = s ++ "\nSet confirm=true and provide password to sign and broadcast." ∨
        out.text = s ++ "\nSet confirm=true to sign and broadcast.") ∧
    (pn.confirm = true → pn.password = "" →
      (handleSendNative env policy pn).2 = false ∧
      (∀ out, (handleSendNative env policy pn).1 ≠ .ok out) ∧
      (∀ out0, (handleSendNative env policy { pn with confirm := false }).1 = .ok out0 →
        (handleSendNative env policy pn).1 = .error "password required to sign")) ∧
    ((handleSendToken env policy pt).2 = true → pt.confirm = true ∧ pt.password ≠ "") ∧
    (pt.confirm = false → (handleSendToken env policy pt).2 = false ∧
      ∀ out, (handleSendToken env policy pt).1 = .ok out → ∃ s,
        out.text = s ++ "\nSet confirm=true and provide password to broadcast.") ∧
    (pt.confirm = true → pt.password = "" →
      (handleSendToken env policy pt).2 = false ∧
      (∀ out, (handleSendToken env policy pt).1 ≠ .ok out) ∧
      (∀ out0, (handleSendToken env policy { pt with confirm := false }).1 = .ok out0 →
        (handleSendToken env policy pt).1 = .error "password required to sign")) ∧
    ((handleApproveToken env policy pa).2 = true → pa.confirm = true ∧ pa.password ≠ "") ∧
    (pa.confirm = false → (handleApproveToken env policy pa).2 = false ∧
      ∀ out, (handleApproveToken env policy pa).1 = .ok out → ∃ s,
        out.text = s ++ "\nSet confirm=true and provide password to broadcast.") ∧
    (pa.confirm = true → pa.password = "" →
      (handleApproveToken env policy pa).2 = false ∧
      (∀ out, (handleApproveToken env policy pa).1 ≠ .ok out) ∧
      (∀ out0, (handleApproveToken env policy { pa with confirm := false }).1 = .ok out0 →
        (handleApproveToken env policy pa).1 = .error "password required to sign")) :=
  ⟨sendNative_flag env policy pn,
   fun hc => sendNative_preview_gate env policy pn hc,
   fun hc hp => sendNative_password_required env policy pn hc hp,
   sendToken_flag env policy pt,
   fun hc => sendToken_preview_gate env policy pt hc,
   fun hc hp => sendToken_password_required env policy pt hc hp,
   approveToken_flag env policy pa,
   fun hc => approveToken_preview_gate env policy pa hc,
   fun hc hp => approveToken_password_required env policy pa hc hp⟩

/-- Witness for claim C1's theorem at concrete inputs: a confirmed
passworded `send_native` attempt indeed had `confirm=true` and a
password, while unconfirmed `send_token` / `approve_token` invocations
do not sign. -/
theorem tools_signing_confirmation_gate_witness :
    (sendNativeInputEx.confirm = true ∧ sendNativeInputEx.password ≠ "") ∧
    (handleSendToken sendEnvEx {} sendTokenInputEx).2 = false ∧
    (handleApproveToken sendEnvEx {} approveTokenInputEx).2 = false :=
  ⟨(tools_signing_confirmation_gate sendEnvEx {} sendNativeInputEx sendTokenInputEx
      approveTokenInputEx).1 (by decide),
   ((tools_signing_confirmation_gate sendEnvEx {} sendNativeInputEx sendTokenInputEx
      approveTokenInputEx).2.2.2.2.1 rfl).1,
   ((tools_signing_confirmation_gate sendEnvEx {} sendNativeInputEx sendTokenInputEx
      approveTokenInputEx).2.2.2.2.2.2.2.1 rfl).1⟩

end Clifi
